import Mathlib

set_option maxHeartbeats 1000000
set_option maxRecDepth 8000

namespace IcedAudio

/-!
Shallow embedding of the realtime audio-to-GUI telemetry pipeline of the
`iced_audio` repository: the SPSC ring channel (`src/core/audio_to_gui_stream.rs`),
the dB-meter peak/RMS detectors (`src/native/db_meter/peak.rs`, `peak_rms.rs`),
the oscilloscope default detector (`src/native/oscilloscope/default_detector.rs`
and the `Animator` in `src/native/oscilloscope.rs`), and the waveform-view peak
detector (`src/native/rt_wave_view/peak_detector.rs`, `rt_wave_view.rs`).

`f32`/`f64` sample arithmetic is embedded as exact rational arithmetic (`ℚ`);
the final decibel conversion (which lives in `src/core/math.rs`, a file the
repository references but whose source is not available here) is embedded over
`ℝ` and kept separate from the exact state machines.
-/

/-! ## Ring channel (`src/core/audio_to_gui_stream.rs` over the `ringbuf` 0.2 crate)

The `ringbuf` crate is the external dependency providing the SPSC ring buffer.
Its buffer holds `cap + 1` physical slots; `head == tail` means empty, so the
logical content never exceeds `cap` elements.  We track the logical queue
`data` (oldest element first) together with the physical read position `head`,
which determines where `access` splits the content into its two slices.
`push_slice` appends at most `free` items and returns the count appended; it
never overwrites unread data (the excess, i.e. newest, items are dropped --
this is what the debug warning in `Producer::write` reports). -/

structure RingState where
  cap : Nat
  head : Nat
  data : List ℚ
deriving DecidableEq

/-- `ringbuf::RingBuffer::new(capacity)` followed by `.split()`: an empty channel. -/
def RingState.new (capacity : Nat) : RingState :=
  ⟨capacity, 0, []⟩

/-- Number of unread samples (`ringbuf::Consumer::len`). -/
def RingState.len (s : RingState) : Nat :=
  s.data.length

/-- Free space left for the producer. -/
def RingState.free (s : RingState) : Nat :=
  s.cap - s.data.length

/-- `ringbuf::Producer::push_slice`: appends as many items of `d` as fit in the
free space (oldest-first from `d`) and returns how many were appended. -/
def RingState.push_slice (s : RingState) (d : List ℚ) : RingState × Nat :=
  let n := min d.length s.free
  ({ s with data := s.data ++ d.take n }, n)

/-- `Producer::write` from `src/core/audio_to_gui_stream.rs`: pushes the slice and
discards the returned count (debug builds only print a warning when `n ≠ d.len()`). -/
def Producer.write (s : RingState) (d : List ℚ) : RingState :=
  (s.push_slice d).1

/-- The two slices handed to the closure of `ringbuf::Consumer::access`: the
physical ring splits the logical content where the backing storage (of
`cap + 1` slots, starting at `head`) wraps; the first slice holds the older
elements. -/
def RingState.accessSlices (s : RingState) : List ℚ × List ℚ :=
  (s.data.take (s.cap + 1 - s.head), s.data.drop (s.cap + 1 - s.head))

/-- Concatenation of the two `access` slices, older elements first. -/
def RingState.accessConcat (s : RingState) : List ℚ :=
  s.accessSlices.1 ++ s.accessSlices.2

/-- `Consumer::read_access` from `src/core/audio_to_gui_stream.rs`: hands the two
slices to the caller without removing anything (peek, not pop); the channel
state after the call is returned unchanged alongside the slices. -/
def Consumer.read_access (s : RingState) : (List ℚ × List ℚ) × RingState :=
  (s.accessSlices, s)

/-- `ringbuf::Consumer::discard(n)`: removes up to `n` of the oldest unread
elements and returns how many were removed. -/
def RingState.discard (s : RingState) (n : Nat) : RingState × Nat :=
  let m := min n s.data.length
  ({ s with head := (s.head + m) % (s.cap + 1), data := s.data.drop m }, m)

/-- `Consumer::clear` from `src/core/audio_to_gui_stream.rs`: `discard(capacity)`. -/
def Consumer.clear (s : RingState) : RingState :=
  (s.discard s.cap).1

/-- `RING_BUF_SIZE` from `src/core/audio_to_gui_stream.rs`. -/
def RING_BUF_SIZE : Nat := 4096

/-- `audio_to_gui_stream::new()`: the freshly split channel of capacity 4096. -/
def audioToGuiStreamNew : RingState :=
  RingState.new RING_BUF_SIZE

/-- A sequence of producer writes applied in order. -/
def writeAll (s : RingState) : List (List ℚ) → RingState
  | [] => s
  | d :: ds => writeAll (Producer.write s d) ds

theorem RingState.accessConcat_eq (s : RingState) : s.accessConcat = s.data :=
  List.take_append_drop _ _

theorem writeAll_cap (s : RingState) (ws : List (List ℚ)) :
    (writeAll s ws).cap = s.cap := by
  induction ws generalizing s with
  | nil => rfl
  | cons d ds ih => simpa [writeAll] using ih (Producer.write s d)

theorem writeAll_data (s : RingState) (ws : List (List ℚ))
    (h : s.data.length ≤ s.cap) :
    (writeAll s ws).data = (s.data ++ ws.flatten).take s.cap := by
  induction ws generalizing s with
  | nil =>
    simp [writeAll, List.take_of_length_le h]
  | cons d ds ih =>
    have hstep : (Producer.write s d).data = (s.data ++ d).take s.cap := by
      simp only [Producer.write, RingState.push_slice, RingState.free]
      rw [List.take_append_eq_append_take, List.take_of_length_le h]
      congr 1
      rw [List.take_eq_take]
      omega
    have hlen : (Producer.write s d).data.length ≤ (Producer.write s d).cap := by
      rw [hstep]
      exact List.length_take_le _ _
    rw [writeAll, ih _ hlen, hstep]
    show ((s.data ++ d).take s.cap ++ ds.flatten).take s.cap = _
    rw [List.flatten_cons, ← List.append_assoc]
    generalize (s.data ++ d) = X
    rw [List.take_append_eq_append_take, List.take_append_eq_append_take]
    rw [List.take_take, min_self, List.length_take]
    congr 1
    rw [List.take_eq_take]
    omega

/-- The excess write used to refute C1: 4097 samples written to the fresh
4096-capacity channel in one call, all zeros followed by a single one. -/
def c1Input : List ℚ :=
  List.replicate 4096 (0:ℚ) ++ [1]

/-- C1, counterexample: writing 4097 samples to the fresh 4096-capacity channel
retains the 4096 *oldest* samples, not the newest `min(capacity, total_written)`
as the claim states: the retained content is the all-zero prefix, while the
newest-4096 tail of the input ends in the sample `1`. -/
theorem c1_newest_retained_counterexample :
    (Producer.write audioToGuiStreamNew c1Input).accessConcat ≠
      c1Input.drop (c1Input.length - RING_BUF_SIZE) := by
  have hretained : (Producer.write audioToGuiStreamNew c1Input).accessConcat =
      List.replicate 4096 (0:ℚ) := by
    rw [RingState.accessConcat_eq]
    show [] ++ c1Input.take (min c1Input.length (4096 - 0)) = _
    rw [List.nil_append, c1Input, List.length_append, List.length_replicate,
      List.length_singleton]
    rw [show min (4096 + 1) (4096 - 0) = 4096 from by omega]
    rw [List.take_append_eq_append_take, List.length_replicate,
      List.take_of_length_le (by rw [List.length_replicate]), Nat.sub_self,
      List.take_zero, List.append_nil]
  have hclaim : c1Input.drop (c1Input.length - RING_BUF_SIZE) =
      List.replicate 4095 (0:ℚ) ++ [1] := by
    rw [c1Input, List.length_append, List.length_replicate]
    rw [show 4096 + [(1:ℚ)].length - RING_BUF_SIZE = 1 from by
      rw [RING_BUF_SIZE]; rfl]
    rw [List.drop_append_eq_append_drop, List.length_replicate]
    rw [show (4096:Nat) = 4095 + 1 from rfl, List.replicate_succ, List.drop_one,
      List.tail_cons]
    rfl
  rw [hretained, hclaim]
  intro h
  have h2 : (List.replicate 4096 (0:ℚ))[4095]? =
      (List.replicate 4095 (0:ℚ) ++ [1])[4095]? := by rw [h]
  rw [List.getElem?_append_right (by rw [List.length_replicate])] at h2
  rw [List.getElem?_replicate] at h2
  rw [List.length_replicate] at h2
  norm_num at h2

/-- C1, amended: for every sequence of producer writes to the fresh channel the
unread length never exceeds the declared capacity, and the retained samples are
exactly the *oldest* `min(capacity, total_written)` samples of the written
input in write order -- the newest samples of an excess write are the ones
dropped (`ringbuf`'s `push_slice` never overwrites unread data; `Producer::write`
merely warns in debug builds when not all data fits). -/
theorem c1_oldest_retained (ws : List (List ℚ)) :
    (writeAll audioToGuiStreamNew ws).len ≤ RING_BUF_SIZE ∧
    (writeAll audioToGuiStreamNew ws).accessConcat =
      ws.flatten.take RING_BUF_SIZE := by
  have hdata : (writeAll audioToGuiStreamNew ws).data =
      ws.flatten.take RING_BUF_SIZE := by
    have := writeAll_data audioToGuiStreamNew ws (by simp [audioToGuiStreamNew,
      RingState.new])
    simpa [audioToGuiStreamNew, RingState.new] using this
  refine ⟨?_, ?_⟩
  · rw [RingState.len, hdata]
    exact List.length_take_le _ _
  · rw [RingState.accessConcat_eq, hdata]

/-- C2: a producer write that fits in the free capacity is appended whole, and a
subsequent consumer `read_access` sees exactly the old content followed by the
new batch (in write order) as the concatenation of its two slices, without
consuming anything: `read_access` leaves the channel state (hence `len`)
unchanged, and `len` after the write grew by exactly the batch size. -/
theorem c2_read_access_exact (s : RingState) (d : List ℚ)
    (h : d.length ≤ s.free) :
    (s.push_slice d).2 = d.length ∧
    (Consumer.read_access (Producer.write s d)).2 = Producer.write s d ∧
    (Producer.write s d).len = s.len + d.length ∧
    (Producer.write s d).accessConcat = s.accessConcat ++ d := by
  have hmin : min d.length s.free = d.length := min_eq_left h
  have hdata : (Producer.write s d).data = s.data ++ d := by
    show s.data ++ d.take (min d.length s.free) = s.data ++ d
    rw [hmin, List.take_length]
  refine ⟨by simpa [RingState.push_slice] using hmin, rfl, ?_, ?_⟩
  · rw [RingState.len, hdata, List.length_append]
    rfl
  · rw [RingState.accessConcat_eq, RingState.accessConcat_eq, hdata]

/-- Witness for C2 at a concrete input: three samples written to the fresh
channel fit (3 ≤ 4096 free), are all appended, and `read_access` yields exactly
them while leaving the state unchanged. -/
theorem c2_read_access_exact_witness :
    ([(1:ℚ), 2, 3].length ≤ audioToGuiStreamNew.free) ∧
    ((audioToGuiStreamNew.push_slice [(1:ℚ), 2, 3]).2 = [(1:ℚ), 2, 3].length ∧
    (Consumer.read_access (Producer.write audioToGuiStreamNew [(1:ℚ), 2, 3])).2 =
      Producer.write audioToGuiStreamNew [(1:ℚ), 2, 3] ∧
    (Producer.write audioToGuiStreamNew [(1:ℚ), 2, 3]).len =
      audioToGuiStreamNew.len + [(1:ℚ), 2, 3].length ∧
    (Producer.write audioToGuiStreamNew [(1:ℚ), 2, 3]).accessConcat =
      audioToGuiStreamNew.accessConcat ++ [(1:ℚ), 2, 3]) :=
  ⟨by decide, c2_read_access_exact audioToGuiStreamNew [(1:ℚ), 2, 3] (by decide)⟩

/-! ## Spec-modelled helpers

`src/core/math.rs` and the `db_meter` module file (with the `Detector` trait
and `DetectorOutput`) are referenced by the repository but their sources are
not available; they are modelled from the spec below. -/

/-- Modelled from the spec: `core::math::amplitude_to_db_f32` (missing file
`src/core/math.rs`).  Per the spec glossary, a decibel value is `20·log10` of
the amplitude. -/
noncomputable def amplitude_to_db (x : ℝ) : ℝ :=
  20 * Real.logb 10 x

/-- Modelled from the spec: `DetectorOutput` (missing `db_meter` module file):
`{left_peak_db, left_bar_db, right_peak_db, right_bar_db}`, each an optional dB
value, `None` signalling "no new data this frame".  This exact-arithmetic core
carries the peak *amplitude* and the RMS *mean-square* value; the transcendental
`sqrt`/`log` conversion to dB is applied by `outputToDb` below. -/
structure DetectorOutputCore where
  left_peak : Option ℚ
  left_bar : Option ℚ
  right_peak : Option ℚ
  right_bar : Option ℚ
deriving DecidableEq

/-- `DetectorOutput::empty()`: all four fields `None`. -/
def DetectorOutputCore.empty : DetectorOutputCore :=
  ⟨none, none, none, none⟩

/-- Modelled from the spec: `DetectorOutput` with the dB values over `ℝ`. -/
structure DetectorOutput where
  left_peak_db : Option ℝ
  left_bar_db : Option ℝ
  right_peak_db : Option ℝ
  right_bar_db : Option ℝ

/-- Converts the exact core output to the dB-domain output: peaks are
amplitudes sent through `20·log10`, RMS bars are mean-squares sent through
`sqrt` and then `20·log10` (as in `PeakRmsDetector::rms_db`). -/
noncomputable def outputToDb (o : DetectorOutputCore) : DetectorOutput :=
  ⟨o.left_peak.map (fun a => amplitude_to_db (a : ℝ)),
   o.left_bar.map (fun ms => amplitude_to_db (Real.sqrt (ms : ℝ))),
   o.right_peak.map (fun a => amplitude_to_db (a : ℝ)),
   o.right_bar.map (fun ms => amplitude_to_db (Real.sqrt (ms : ℝ)))⟩

/-- A Rust panic observable in this embedding (an out-of-bounds slice). -/
inductive RustPanic where
  | sliceOutOfBounds
deriving DecidableEq

/-- Decidable equality on `Except`, used to evaluate the models at concrete
inputs. -/
def exceptDecEq {ε α : Type} [DecidableEq ε] [DecidableEq α] :
    DecidableEq (Except ε α) := fun x y =>
  match x, y with
  | .ok a, .ok b =>
    if h : a = b then isTrue (by rw [h])
    else isFalse (fun hh => by cases hh; exact h rfl)
  | .error a, .error b =>
    if h : a = b then isTrue (by rw [h])
    else isFalse (fun hh => by cases hh; exact h rfl)
  | .ok _, .error _ => isFalse (fun hh => by cases hh)
  | .error _, .ok _ => isFalse (fun hh => by cases hh)

instance {ε α : Type} [DecidableEq ε] [DecidableEq α] :
    DecidableEq (Except ε α) :=
  exceptDecEq

/-- The floor of a rational, written so that the kernel can evaluate it
(`⌊·⌋` on `ℚ` goes through the `FloorRing` class and does not reduce). -/
def ratFloor (q : ℚ) : ℤ :=
  q.num / q.den

theorem ratFloor_eq_floor (q : ℚ) : ratFloor q = ⌊q⌋ :=
  Rat.floor_def.symm

/-- Rust's `f32::round` / `f64::round`: round half away from zero. -/
def rustRound (q : ℚ) : ℤ :=
  if 0 ≤ q then ratFloor (q + 1/2) else -ratFloor (-q + 1/2)

/-- Rust's `f32::trunc` (also the `as isize` cast of a float): round toward zero. -/
def rustTrunc (q : ℚ) : ℤ :=
  if 0 ≤ q then ratFloor q else -ratFloor (-q)

/-- Rust's `f32::fract`: `self - self.trunc()`. -/
def rustFract (q : ℚ) : ℚ :=
  q - rustTrunc q

/-! ## dB meter: `calc_peak_db` (`src/native/db_meter/peak.rs`) -/

/-- The maximum-absolute-value fold of `calc_peak_db`, starting from `0.0`. -/
def maxAbsFold (l : List ℚ) (init : ℚ) : ℚ :=
  l.foldl (fun m x => if m < |x| then |x| else m) init

/-- `calc_peak_db` from `src/native/db_meter/peak.rs`, before the dB
conversion: the maximum absolute sample over the two slices combined. -/
def calc_peak_amp (s1 s2 : List ℚ) : ℚ :=
  maxAbsFold s2 (maxAbsFold s1 0)

/-- `calc_peak_db` itself (dB conversion applied). -/
noncomputable def calc_peak_db (s1 s2 : List ℚ) : ℝ :=
  amplitude_to_db ((calc_peak_amp s1 s2 : ℚ) : ℝ)

/-! ## PeakRmsDetector (`src/native/db_meter/peak_rms.rs`) -/

/-- `RMS_WINDOW_SIZE_SEC` (0.3 seconds). -/
def RMS_WINDOW_SIZE_SEC : ℚ := 3/10

/-- `RMS_BLOCK_SIZE` (256 samples per cached block). -/
def RMS_BLOCK_SIZE : Nat := 256

/-- The `RmsCache` struct: the `circular_queue` of per-block sums (oldest
first, with its declared capacity), the running sum of the cached blocks, the
256-slot staging buffer and the count of valid staged samples. -/
structure RmsCache where
  block_cache : List ℚ
  block_cache_capacity : Nat
  block_sum : ℚ
  smps_to_cache : List ℚ
  smps_not_cached : Nat
deriving DecidableEq

/-- `circular_queue::CircularQueue::push`: appends when below capacity,
otherwise overwrites (and returns) the oldest entry; a capacity-0 queue stores
nothing. -/
def cqPush (q : List ℚ) (cap : Nat) (x : ℚ) : List ℚ × Option ℚ :=
  if cap = 0 then (q, some x)
  else if q.length < cap then (q ++ [x], none)
  else (q.tail ++ [x], q.head?)

/-- The sequential sum-of-squares accumulation (`sum += smp * smp` from 0.0). -/
def sumSquares (l : List ℚ) : ℚ :=
  l.foldl (fun acc x => acc + x * x) 0

/-- The block-caching `while` loop of `PeakRmsDetector::rms_db`.  State:
the staged-but-uncached samples view, the two input slices, the block cache,
its capacity, the running block sum, and `smps_not_cached` (reset to 0 when a
block consumes the staged samples).  The `else` branch slices
`s2[..RMS_BLOCK_SIZE - s1.len()]`, which panics when `s2` is too short -- note
that this branch ignores the staged samples entirely, which is what makes the
panic reachable. -/
def rmsLoopF (fuel : Nat) (uncached s1 s2 bc : List ℚ) (cap : Nat) (bsum : ℚ)
    (snc : Nat) :
    Except RustPanic (List ℚ × List ℚ × List ℚ × List ℚ × ℚ × Nat) :=
  match fuel with
  | 0 => .ok (uncached, s1, s2, bc, bsum, snc)
  | fuel + 1 =>
    if uncached.length + s1.length + s2.length < RMS_BLOCK_SIZE then
      .ok (uncached, s1, s2, bc, bsum, snc)
    else if RMS_BLOCK_SIZE ≤ uncached.length + s1.length then
      let s1Part := s1.take (RMS_BLOCK_SIZE - uncached.length)
      let sum := sumSquares (uncached ++ s1Part)
      let pr := cqPush bc cap sum
      rmsLoopF fuel [] (s1.drop (RMS_BLOCK_SIZE - uncached.length)) s2 pr.1 cap
        (bsum - pr.2.getD 0 + sum) 0
    else
      if s2.length < RMS_BLOCK_SIZE - s1.length then .error .sliceOutOfBounds
      else
        let s2Part := s2.take (RMS_BLOCK_SIZE - s1.length)
        let sum := sumSquares (s1 ++ s2Part)
        let pr := cqPush bc cap sum
        rmsLoopF fuel uncached [] (s2.drop (RMS_BLOCK_SIZE - s1.length)) pr.1
          cap (bsum - pr.2.getD 0 + sum) snc

/-- The loop with enough fuel to run to completion: each iteration of the
source's `while` removes exactly `RMS_BLOCK_SIZE ≥ 1` samples from the combined
input, so `total + 1` iterations can never be reached and the fuel bound is
inert (structural fuel only makes the recursion kernel-reducible). -/
def rmsLoop (uncached s1 s2 bc : List ℚ) (cap : Nat) (bsum : ℚ) (snc : Nat) :
    Except RustPanic (List ℚ × List ℚ × List ℚ × List ℚ × ℚ × Nat) :=
  rmsLoopF (uncached.length + s1.length + s2.length + 1) uncached s1 s2 bc cap
    bsum snc

/-- The final leftover-staging step of `rms_db`: copies the remaining `s1` and
`s2` into `smps_to_cache` starting at `smps_not_cached` (a `copy_from_slice`
into a range of the 256-slot vector, which panics when the range overruns). -/
def storeLeftover (s1 s2 : List ℚ) (c : RmsCache) (rms : Option ℚ) :
    Except RustPanic (Option ℚ × RmsCache) :=
  if s1.length + s2.length = 0 then .ok (rms, c)
  else if RMS_BLOCK_SIZE < c.smps_not_cached + s1.length + s2.length then
    .error .sliceOutOfBounds
  else
    .ok (rms,
      { c with
        smps_to_cache := c.smps_to_cache.take c.smps_not_cached ++ s1 ++ s2 ++
          c.smps_to_cache.drop (c.smps_not_cached + s1.length + s2.length),
        smps_not_cached := c.smps_not_cached + s1.length + s2.length })

/-- `PeakRmsDetector::rms_db` over the exact core: consumes the staged samples
and the two slices block-by-block, returns the new mean-square value
(`block_sum * one_over_rms_window_size`, to be sent through `sqrt` and dB by
the caller) only when at least one new block was cached this call *and* the
block cache is full, and stages the remaining samples. -/
def rms_db_core (s1 s2 : List ℚ) (c : RmsCache) (oow : ℚ) :
    Except RustPanic (Option ℚ × RmsCache) :=
  let uncached := c.smps_to_cache.take c.smps_not_cached
  if RMS_BLOCK_SIZE ≤ uncached.length + s1.length + s2.length then
    match rmsLoop uncached s1 s2 c.block_cache c.block_cache_capacity
        c.block_sum c.smps_not_cached with
    | .error e => .error e
    | .ok (_, s1r, s2r, bc2, bsum2, snc2) =>
      let rms : Option ℚ :=
        if bc2.length = c.block_cache_capacity then some (bsum2 * oow) else none
      storeLeftover s1r s2r
        { c with
          block_cache := bc2,
          block_sum := bsum2,
          smps_not_cached := snc2 } rms
  else
    storeLeftover s1 s2 c none

/-- The `PeakRmsDetector` struct. -/
structure PeakRmsDetector where
  rms_window_size : Nat
  one_over_rms_window_size : ℚ
  rms_block_size : Nat
  sample_rate : ℚ
  left_rms_cache : Option RmsCache
  right_rms_cache : Option RmsCache
deriving DecidableEq

/-- `PeakRmsDetector::new()`. -/
def PeakRmsDetector.new : PeakRmsDetector :=
  ⟨0, 0, 0, 0, none, none⟩

/-- A freshly allocated `RmsCache` as built by `update_sample_rate`: empty
block queue of the given capacity, zero running sum, 256 zeroed staging slots. -/
def freshRmsCache (blockCap : Nat) : RmsCache :=
  ⟨[], blockCap, 0, List.replicate RMS_BLOCK_SIZE 0, 0⟩

/-- `PeakRmsDetector::update_sample_rate`: when the rate actually changes,
recompute `rms_block_size = round(round(0.3·sr) / 256)` (Rust `f32::round`,
i.e. half away from zero, then `as usize`), `rms_window_size = block·256`,
`one_over_rms_window_size = 1 / rms_window_size`, and reallocate both caches.
(In Rust `1.0/0.0` is `inf`; in `ℚ` it is 0 -- the claims never divide by a
zero window.) -/
def PeakRmsDetector.update_sample_rate (d : PeakRmsDetector) (sample_rate : ℚ) :
    PeakRmsDetector :=
  if sample_rate = d.sample_rate then d
  else
    let rms_window_target : ℚ := (rustRound (RMS_WINDOW_SIZE_SEC * sample_rate) : ℚ)
    let rms_block_size : Nat :=
      (rustRound (rms_window_target / (RMS_BLOCK_SIZE : ℚ))).toNat
    { rms_window_size := rms_block_size * RMS_BLOCK_SIZE,
      one_over_rms_window_size := 1 / ((rms_block_size * RMS_BLOCK_SIZE : Nat) : ℚ),
      rms_block_size := rms_block_size,
      sample_rate := sample_rate,
      left_rms_cache := some (freshRmsCache rms_block_size),
      right_rms_cache := some (freshRmsCache rms_block_size) }

/-- `PeakRmsDetector::process` over the exact core.  The consumer streams are
represented by the two slices their `read_access` yields.  Mirrors the source:
for each stream with new samples, the peak is computed, and the RMS step runs
only when the corresponding cache has been allocated. -/
def PeakRmsDetector.process_core (d : PeakRmsDetector) (left : List ℚ × List ℚ)
    (right : Option (List ℚ × List ℚ)) :
    Except RustPanic (DetectorOutputCore × PeakRmsDetector) :=
  let leftStep : Except RustPanic ((Option ℚ × Option ℚ) × PeakRmsDetector) :=
    if 0 < left.1.length + left.2.length then
      match d.left_rms_cache with
      | some c =>
        match rms_db_core left.1 left.2 c d.one_over_rms_window_size with
        | .error e => .error e
        | .ok (rms, c2) =>
          .ok ((some (calc_peak_amp left.1 left.2), rms),
            { d with left_rms_cache := some c2 })
      | none => .ok ((some (calc_peak_amp left.1 left.2), none), d)
    else .ok ((none, none), d)
  match leftStep with
  | .error e => .error e
  | .ok ((lp, lb), d1) =>
    match right with
    | none => .ok (⟨lp, lb, none, none⟩, d1)
    | some rs =>
      if 0 < rs.1.length + rs.2.length then
        match d1.right_rms_cache with
        | some c =>
          match rms_db_core rs.1 rs.2 c d1.one_over_rms_window_size with
          | .error e => .error e
          | .ok (rms, c2) =>
            .ok (⟨lp, lb, some (calc_peak_amp rs.1 rs.2), rms⟩,
              { d1 with right_rms_cache := some c2 })
        | none => .ok (⟨lp, lb, some (calc_peak_amp rs.1 rs.2), none⟩, d1)
      else .ok (⟨lp, lb, none, none⟩, d1)

/-- `PeakRmsDetector::process` with the dB conversion applied. -/
noncomputable def PeakRmsDetector.process (d : PeakRmsDetector)
    (left : List ℚ × List ℚ) (right : Option (List ℚ × List ℚ)) :
    Except RustPanic (DetectorOutput × PeakRmsDetector) :=
  (d.process_core left right).map (fun p => (outputToDb p.1, p.2))

/-- `PeakRmsDetector::clear`. -/
def PeakRmsDetector.clear (d : PeakRmsDetector) : PeakRmsDetector :=
  { d with
    left_rms_cache := d.left_rms_cache.map
      (fun c => { c with smps_not_cached := 0, block_cache := [], block_sum := 0 }),
    right_rms_cache := d.right_rms_cache.map
      (fun c => { c with smps_not_cached := 0, block_cache := [], block_sum := 0 }) }

/-- C5, counterexample: `update_sample_rate` rounds the nominal window to the
*nearest* multiple of `RMS_BLOCK_SIZE` (`.round()` in the source), not down as
the claim states.  At `sample_rate = 44100` the code stores
`round(round(0.3·44100)/256)·256 = 52·256 = 13312`, while the claim's formula
`floor(round(0.3·44100)/256)·256` gives `51·256 = 13056`. -/
theorem c5_floor_counterexample :
    (PeakRmsDetector.new.update_sample_rate 44100).rms_window_size ≠
      (Int.fdiv (rustRound (RMS_WINDOW_SIZE_SEC * 44100)) (RMS_BLOCK_SIZE : ℤ)).toNat *
        RMS_BLOCK_SIZE := by
  have h1 : (PeakRmsDetector.new.update_sample_rate 44100).rms_window_size = 13312 := by
    with_unfolding_all rfl
  have h2 : (Int.fdiv (rustRound (RMS_WINDOW_SIZE_SEC * 44100)) (RMS_BLOCK_SIZE : ℤ)).toNat *
      RMS_BLOCK_SIZE = 13056 := by
    with_unfolding_all rfl
  rw [h1, h2]
  decide

/-- Rounding to the nearest multiple of `RMS_BLOCK_SIZE` lands within half a
block (128 samples) of the target. -/
theorem nearest_block_bound (w : ℤ) (hw : 0 ≤ w) :
    |(((rustRound ((w : ℚ) / (RMS_BLOCK_SIZE : ℚ))).toNat * RMS_BLOCK_SIZE : Nat) : ℚ) -
      (w : ℚ)| ≤ 128 := by
  have h256 : ((RMS_BLOCK_SIZE : Nat) : ℚ) = 256 := by norm_num [RMS_BLOCK_SIZE]
  have hx : (0:ℚ) ≤ (w : ℚ) / (RMS_BLOCK_SIZE : ℚ) := by
    apply div_nonneg
    · exact_mod_cast hw
    · rw [h256]; norm_num
  have hb : rustRound ((w : ℚ) / (RMS_BLOCK_SIZE : ℚ)) =
      ⌊(w : ℚ) / (RMS_BLOCK_SIZE : ℚ) + 1/2⌋ := by
    rw [rustRound, if_pos hx, ratFloor_eq_floor]
  rw [hb]
  set b : ℤ := ⌊(w : ℚ) / (RMS_BLOCK_SIZE : ℚ) + 1/2⌋ with hbdef
  have hbnn : 0 ≤ b := Int.floor_nonneg.mpr (by linarith)
  have hup : (b : ℚ) ≤ (w : ℚ) / (RMS_BLOCK_SIZE : ℚ) + 1/2 := Int.floor_le _
  have hdown : (w : ℚ) / (RMS_BLOCK_SIZE : ℚ) + 1/2 < (b : ℚ) + 1 :=
    Int.lt_floor_add_one _
  have hxw : (w : ℚ) / (RMS_BLOCK_SIZE : ℚ) * (RMS_BLOCK_SIZE : ℚ) = (w : ℚ) := by
    apply div_mul_cancel₀
    rw [h256]; norm_num
  have hbq : ((b.toNat : ℕ) : ℚ) = (b : ℚ) := by
    exact_mod_cast Int.toNat_of_nonneg hbnn
  have hcast : (((b.toNat * RMS_BLOCK_SIZE : Nat)) : ℚ) =
      (b : ℚ) * ((RMS_BLOCK_SIZE : Nat) : ℚ) := by
    push_cast
    rw [hbq]
  rw [hcast, h256]
  rw [h256] at hxw hup hdown
  rw [abs_le]
  constructor <;> linarith

/-- C5, amended: after `update_sample_rate` with an actually-changed rate `sr ≥ 0`,
the stored `rms_window_size` is `round(round(0.3·sr)/256)·256` -- the nominal
target `round(0.3·sr)` rounded to the *nearest* multiple of `BLOCK_SIZE = 256`
(within 128 samples of it), not rounded down -- with `rms_block_size` the
corresponding block count and both caches freshly reallocated. -/
theorem c5_nearest_block_multiple (d : PeakRmsDetector) (sr : ℚ)
    (hneq : sr ≠ d.sample_rate) (hsr : 0 ≤ sr) :
    (d.update_sample_rate sr).rms_window_size =
      (rustRound ((rustRound (RMS_WINDOW_SIZE_SEC * sr) : ℤ) / (RMS_BLOCK_SIZE : ℚ))).toNat *
        RMS_BLOCK_SIZE ∧
    (d.update_sample_rate sr).rms_window_size =
      (d.update_sample_rate sr).rms_block_size * RMS_BLOCK_SIZE ∧
    (d.update_sample_rate sr).left_rms_cache =
      some (freshRmsCache (d.update_sample_rate sr).rms_block_size) ∧
    (d.update_sample_rate sr).right_rms_cache =
      some (freshRmsCache (d.update_sample_rate sr).rms_block_size) ∧
    |((d.update_sample_rate sr).rms_window_size : ℚ) -
      (rustRound (RMS_WINDOW_SIZE_SEC * sr) : ℤ)| ≤ 128 := by
  have htarget : (0:ℚ) ≤ RMS_WINDOW_SIZE_SEC * sr := by
    have : (0:ℚ) ≤ RMS_WINDOW_SIZE_SEC := by norm_num [RMS_WINDOW_SIZE_SEC]
    exact mul_nonneg this hsr
  have hwnn : 0 ≤ rustRound (RMS_WINDOW_SIZE_SEC * sr) := by
    rw [rustRound, if_pos htarget, ratFloor_eq_floor]
    exact Int.floor_nonneg.mpr (by linarith)
  rw [PeakRmsDetector.update_sample_rate, if_neg hneq]
  exact ⟨rfl, rfl, rfl, rfl, nearest_block_bound _ hwnn⟩

/-- Witness for C5 at `sample_rate = 44100` from a fresh detector (stored
window 13312 = 52 blocks, within 128 samples of the nominal 13230). -/
theorem c5_nearest_block_multiple_witness :
    ((44100 : ℚ) ≠ PeakRmsDetector.new.sample_rate) ∧
    ((PeakRmsDetector.new.update_sample_rate 44100).rms_window_size =
      (rustRound ((rustRound (RMS_WINDOW_SIZE_SEC * 44100) : ℤ) / (RMS_BLOCK_SIZE : ℚ))).toNat *
        RMS_BLOCK_SIZE ∧
    (PeakRmsDetector.new.update_sample_rate 44100).rms_window_size =
      (PeakRmsDetector.new.update_sample_rate 44100).rms_block_size * RMS_BLOCK_SIZE ∧
    (PeakRmsDetector.new.update_sample_rate 44100).left_rms_cache =
      some (freshRmsCache (PeakRmsDetector.new.update_sample_rate 44100).rms_block_size) ∧
    (PeakRmsDetector.new.update_sample_rate 44100).right_rms_cache =
      some (freshRmsCache (PeakRmsDetector.new.update_sample_rate 44100).rms_block_size) ∧
    |((PeakRmsDetector.new.update_sample_rate 44100).rms_window_size : ℚ) -
      (rustRound (RMS_WINDOW_SIZE_SEC * 44100) : ℤ)| ≤ 128) :=
  ⟨by decide, c5_nearest_block_multiple PeakRmsDetector.new 44100 (by decide) (by decide)⟩

/-- C3, the failing input: after setting the sample rate (window 14336 samples),
a first `process` call delivering 200 samples stages them (fewer than one
block), and a second call delivering 30 + 30 samples through the ring's two
wrap slices makes `rms_db` panic: its block loop takes the branch that slices
`s2[..256 - s1.len()]` while ignoring the 200 staged samples, overrunning the
30-sample second slice.  The claim (RMS output `None` until a full window of
14336 samples has arrived -- only 260 were fed) is the documented intent; the
code panics instead. -/
theorem c3_rms_panic_before_full_window :
    (((PeakRmsDetector.new.update_sample_rate 48000).process
        (List.replicate 200 (1:ℚ), []) none).bind
      (fun p => p.2.process (List.replicate 30 (1:ℚ), List.replicate 30 1) none)) =
      .error .sliceOutOfBounds ∧
    200 + 30 + 30 < (PeakRmsDetector.new.update_sample_rate 48000).rms_window_size := by
  have hcore : (((PeakRmsDetector.new.update_sample_rate 48000).process_core
        (List.replicate 200 (1:ℚ), []) none).bind
      (fun p => p.2.process_core (List.replicate 30 (1:ℚ), List.replicate 30 1) none)) =
      .error .sliceOutOfBounds := by
    decide
  constructor
  · rcases h1 : (PeakRmsDetector.new.update_sample_rate 48000).process_core
        (List.replicate 200 (1:ℚ), []) none with e | p
    · rw [h1] at hcore
      have he : e = .sliceOutOfBounds := by cases e; rfl
      rw [PeakRmsDetector.process, h1, he]
      rfl
    · rw [h1] at hcore
      have h2 : p.2.process_core (List.replicate 30 (1:ℚ), List.replicate 30 1) none =
          .error .sliceOutOfBounds := by
        simpa [Except.bind] using hcore
      rw [PeakRmsDetector.process, h1]
      show (p.2.process (List.replicate 30 (1:ℚ), List.replicate 30 1) none) = _
      rw [PeakRmsDetector.process, h2]
      rfl
  · have hw : (PeakRmsDetector.new.update_sample_rate 48000).rms_window_size = 14336 := by
      with_unfolding_all rfl
    rw [hw]
    decide

/-- C9: before `update_sample_rate` has allocated the RMS caches (both still
`None`, as from `PeakRmsDetector::new`), a `process` call is total -- it never
reaches `rms_db` -- and returns peak readings exactly when the corresponding
stream has samples while both RMS bar outputs stay `None`; the detector state
is unchanged. -/
theorem c9_process_total_without_caches (d : PeakRmsDetector)
    (l : List ℚ × List ℚ) (r : Option (List ℚ × List ℚ))
    (hl : d.left_rms_cache = none) (hr : d.right_rms_cache = none) :
    d.process l r = .ok
      (⟨(if 0 < l.1.length + l.2.length then some (calc_peak_db l.1 l.2) else none),
        none,
        (match r with
         | some rs =>
           if 0 < rs.1.length + rs.2.length then some (calc_peak_db rs.1 rs.2) else none
         | none => none),
        none⟩, d) := by
  have hcore : d.process_core l r = .ok
      (⟨(if 0 < l.1.length + l.2.length then some (calc_peak_amp l.1 l.2) else none),
        none,
        (match r with
         | some rs =>
           if 0 < rs.1.length + rs.2.length then some (calc_peak_amp rs.1 rs.2) else none
         | none => none),
        none⟩, d) := by
    rw [PeakRmsDetector.process_core]
    by_cases hc : 0 < l.1.length + l.2.length
    · simp only [hl, hr, if_pos hc]
      rcases r with _ | rs
      · rfl
      · by_cases hc2 : 0 < rs.1.length + rs.2.length
        · simp only [hl, hr, if_pos hc2]
        · simp only [hl, hr, if_neg hc2]
    · simp only [hl, hr, if_neg hc]
      rcases r with _ | rs
      · rfl
      · by_cases hc2 : 0 < rs.1.length + rs.2.length
        · simp only [hl, hr, if_pos hc2]
        · simp only [hl, hr, if_neg hc2]
  rw [PeakRmsDetector.process, hcore]
  rcases r with _ | rs
  · simp only [Except.map, outputToDb, calc_peak_db]
    split <;> rfl
  · simp only [Except.map, outputToDb, calc_peak_db]
    split <;> split <;> rfl

/-- Witness for C9: the fresh detector processing two nonempty left slices and
an empty right stream returns a left peak, no right peak, and no RMS bars. -/
theorem c9_process_total_without_caches_witness :
    (PeakRmsDetector.new.left_rms_cache = none) ∧
    (PeakRmsDetector.new.right_rms_cache = none) ∧
    PeakRmsDetector.new.process ([(1:ℚ), -2], [3]) (some ([], [])) = .ok
      (⟨(if 0 < [(1:ℚ), -2].length + [(3:ℚ)].length then
          some (calc_peak_db [(1:ℚ), -2] [3]) else none),
        none,
        (match (some (([], []) : List ℚ × List ℚ)) with
         | some rs =>
           if 0 < rs.1.length + rs.2.length then some (calc_peak_db rs.1 rs.2) else none
         | none => none),
        none⟩, PeakRmsDetector.new) :=
  ⟨rfl, rfl,
    c9_process_total_without_caches PeakRmsDetector.new ([(1:ℚ), -2], [3])
      (some ([], [])) rfl rfl⟩

/-! ## Oscilloscope default detector (`src/native/oscilloscope/default_detector.rs`)

The rolling history is a `bit_mask_ring_buf::BMRingBuf<f32>`: a ring whose
length is the requested length rounded up to the next power of two, indexed by
`isize` with bit-mask constraining -- for a power-of-two length, `i & (len-1)`
on two's-complement integers is exactly the Euclidean remainder `i.emod len`. -/

namespace Oscilloscope

/-- Modelled from the spec: `core::Normal` (file not among the available
sources), a value normalized to `[0, 1]` ("phase (normalized 0..1)"); the
constructor clamps and `value()` reads it back. -/
structure Normal where
  value : ℚ
deriving DecidableEq

/-- `Normal` constructor, clamping into `[0, 1]`. -/
def Normal.new (q : ℚ) : Normal :=
  ⟨max 0 (min 1 q)⟩

/-- The oscilloscope detection `Mode`. -/
inductive Mode where
  | MonoOrLeftOnly
  | RightOnly
  | Dual
  | StereoToMono
deriving DecidableEq

/-- `bit_mask_ring_buf::BMRingBuf<f32>`, as the list of its elements (the
length is kept a power of two by the constructors below). -/
structure BMRingBuf where
  data : List ℚ
deriving DecidableEq

/-- `BMRingBuf::from_len`: length rounded up to the next power of two,
slots initialized to the default `0.0`. -/
def BMRingBuf.from_len (n : Nat) : BMRingBuf :=
  ⟨List.replicate n.nextPowerOfTwo 0⟩

/-- `BMRingBuf::constrain`: bit-mask wraparound of an index, i.e. the
Euclidean remainder modulo the (power-of-two) length. -/
def BMRingBuf.constrain (b : BMRingBuf) (i : ℤ) : ℤ :=
  i.emod b.data.length

/-- `BMRingBuf::set_len`: resize to the next power of two of `n`, truncating
or extending with the default `0.0`; existing leading content is kept. -/
def BMRingBuf.set_len (b : BMRingBuf) (n : Nat) : BMRingBuf :=
  ⟨b.data.take n.nextPowerOfTwo ++
    List.replicate (n.nextPowerOfTwo - b.data.length) 0⟩

/-- `BMRingBuf::clear`: reset every slot to the default `0.0`. -/
def BMRingBuf.clear (b : BMRingBuf) : BMRingBuf :=
  ⟨List.replicate b.data.length 0⟩

/-- Indexing (`buf[i]`): read at the constrained index. -/
def BMRingBuf.get (b : BMRingBuf) (i : ℤ) : ℚ :=
  b.data.getD (b.constrain i).toNat 0

/-- Write one element at the constrained index. -/
def BMRingBuf.setIdx (b : BMRingBuf) (i : ℤ) (v : ℚ) : BMRingBuf :=
  ⟨b.data.set (b.constrain i).toNat v⟩

/-- Sequential writes at consecutive (constrained) indices. -/
def BMRingBuf.writeSeq (b : BMRingBuf) : List ℚ → ℤ → BMRingBuf
  | [], _ => b
  | x :: xs, i => (b.setIdx i x).writeSeq xs (i + 1)

/-- `BMRingBuf::write_latest_2`: writes `s1` then `s2` starting at `start`
(when the data is longer than the ring, later writes overwrite earlier ones,
which is the crate's "only the latest data" behaviour). -/
def BMRingBuf.write_latest_2 (b : BMRingBuf) (s1 s2 : List ℚ) (start : ℤ) :
    BMRingBuf :=
  b.writeSeq (s1 ++ s2) start

/-- The detector `Params` (`1/0 = 0` in `ℚ` where Rust would produce `inf`;
the claims only use positive rates and window sizes). -/
structure Params where
  window_size : ℚ
  sample_rate : ℚ
  gain : ℚ
  phase : Normal
  mode : Mode
  sample_rate_recip : ℚ
  smp_to_window_phase_ratio : ℚ
deriving DecidableEq

/-- `Params::new`. -/
def Params.new (window_size sample_rate gain : ℚ) (phase : Normal)
    (mode : Mode) : Params :=
  ⟨window_size, sample_rate, gain, phase, mode, 1 / sample_rate,
    1 / sample_rate / window_size⟩

/-- `Params::update_window_size`. -/
def Params.update_window_size (p : Params) (window_size : ℚ) : Params :=
  { p with
    window_size := window_size,
    smp_to_window_phase_ratio := p.sample_rate_recip / window_size }

/-- `Params::update_sample_rate`. -/
def Params.update_sample_rate (p : Params) (sample_rate : ℚ) : Params :=
  { p with
    sample_rate := sample_rate,
    sample_rate_recip := 1 / sample_rate,
    smp_to_window_phase_ratio := 1 / sample_rate / p.window_size }

/-- One oscilloscope `Channel`: rolling history ring, fractional phase of the
latest sample inside the current window, and the write cursor. -/
structure Channel where
  buffer : BMRingBuf
  latest_window_phase : ℚ
  buffer_i : ℤ
deriving DecidableEq

/-- The linear-interpolation resampling loop of `Channel::process`: one output
value per plot slot, advancing the floating read index by `delta` each step;
`float_index as isize` is a truncation (`rustTrunc`). -/
def resample (buffer : BMRingBuf) (float_index delta gain : ℚ) : Nat → List ℚ
  | 0 => []
  | n + 1 =>
    let float_index_floor := rustTrunc float_index
    let inter_smp_frac := float_index - (float_index_floor : ℚ)
    let smp1 := buffer.get float_index_floor
    let smp2 := buffer.get (float_index_floor + 1)
    (smp1 + (smp2 - smp1) * inter_smp_frac) * gain ::
      resample buffer (float_index + delta) delta gain n

/-- `Channel::process`.  The plot buffers are in-out values: `none` means the
caller passed no buffer; a returned `some` is the buffer's content after the
call.  The first component of the result is the updated channel state, which
by construction does not depend on the plot arguments.  (When both plots are
supplied, `plot_2.copy_from_slice(plot)` in Rust panics on a length mismatch;
the model copies the whole plot, and no claim exercises mismatched lengths.) -/
def Channel.process (ch : Channel) (s1 s2 : List ℚ)
    (plot plot_2 : Option (List ℚ)) (params : Params) :
    Channel × Option (List ℚ) × Option (List ℚ) :=
  let buffer1 := ch.buffer.write_latest_2 s1 s2 ch.buffer_i
  let samples_elapsed := s1.length + s2.length
  let buffer_i2 := buffer1.constrain (ch.buffer_i + (samples_elapsed : ℤ))
  let num_windows_elapsed := ch.latest_window_phase +
    (samples_elapsed : ℚ) * params.smp_to_window_phase_ratio
  let latest_window_phase2 := rustFract num_windows_elapsed
  let ch2 : Channel := ⟨buffer1, latest_window_phase2, buffer_i2⟩
  (ch2,
    if (1:ℚ) ≤ num_windows_elapsed then
      let phase0 := latest_window_phase2 + params.phase.value
      let phase1 := if (1:ℚ) ≤ phase0 then phase0 - 1 else phase0
      let time_offset := phase1 * params.window_size + params.window_size
      let fi0 : ℚ := (buffer_i2 : ℚ) - time_offset * params.sample_rate
      let float_index : ℚ :=
        if fi0 < 0 then
          ((buffer1.constrain (ratFloor fi0)) : ℚ) + (fi0 - (ratFloor fi0 : ℚ))
        else fi0
      match plot with
      | some p =>
        let plot_index_delta := params.window_size / (p.length : ℚ) *
          params.sample_rate
        let newPlot := resample buffer1 float_index plot_index_delta
          params.gain p.length
        match plot_2 with
        | some _ => (some newPlot, some newPlot)
        | none => (some newPlot, none)
      | none => (none, plot_2)
    else (plot, plot_2))

/-- `Channel::clear`. -/
def Channel.clear (ch : Channel) : Channel :=
  ⟨ch.buffer.clear, 0, 0⟩

/-- The `DefaultDetector` struct. -/
structure DefaultDetector where
  params : Params
  left_channel : Option Channel
  right_channel : Option Channel
  temp_plots : Option (List ℚ × List ℚ)
deriving DecidableEq

/-- The ring length requested by `allocate_buffers`:
`(window_size * 2.0 * sample_rate) as usize` (float-to-usize casts truncate
toward zero and saturate at 0). -/
def bufferSizeOf (p : Params) : Nat :=
  (rustTrunc (p.window_size * 2 * p.sample_rate)).toNat

/-- `DefaultDetector::allocate_buffers`: drop the channel unused by the mode,
`set_len` an existing channel's ring (cursors are NOT reset), create missing
channels fresh, and reset `temp_plots` to empty vectors exactly in
`StereoToMono` mode. -/
def DefaultDetector.allocate_buffers (d : DefaultDetector) : DefaultDetector :=
  let buffer_size := bufferSizeOf d.params
  { d with
    left_channel :=
      if d.params.mode = Mode.RightOnly then none
      else
        match d.left_channel with
        | some ch => some { ch with buffer := ch.buffer.set_len buffer_size }
        | none => some ⟨BMRingBuf.from_len buffer_size, 0, 0⟩,
    right_channel :=
      if d.params.mode = Mode.MonoOrLeftOnly then none
      else
        match d.right_channel with
        | some ch => some { ch with buffer := ch.buffer.set_len buffer_size }
        | none => some ⟨BMRingBuf.from_len buffer_size, 0, 0⟩,
    temp_plots :=
      if d.params.mode = Mode.StereoToMono then some ([], []) else none }

/-- `DefaultDetector::new`. -/
def DefaultDetector.new (window_size sample_rate gain : ℚ) (phase : Normal)
    (mode : Mode) : DefaultDetector :=
  DefaultDetector.allocate_buffers
    ⟨Params.new window_size sample_rate gain phase mode, none, none, none⟩

/-- `DefaultDetector::set_mode`: reallocates only when the mode changes. -/
def DefaultDetector.set_mode (d : DefaultDetector) (mode : Mode) :
    DefaultDetector :=
  if mode = d.params.mode then d
  else DefaultDetector.allocate_buffers { d with params := { d.params with mode := mode } }

/-- `DefaultDetector::set_window_size`: reallocates only on an actual change. -/
def DefaultDetector.set_window_size (d : DefaultDetector) (window_size : ℚ) :
    DefaultDetector :=
  if window_size = d.params.window_size then d
  else DefaultDetector.allocate_buffers
    { d with params := d.params.update_window_size window_size }

/-- `DefaultDetector::set_sample_rate`: reallocates only on an actual change. -/
def DefaultDetector.set_sample_rate (d : DefaultDetector) (sample_rate : ℚ) :
    DefaultDetector :=
  if sample_rate = d.params.sample_rate then d
  else DefaultDetector.allocate_buffers
    { d with params := d.params.update_sample_rate sample_rate }

/-- `DefaultDetector::set_gain`: a plain field write. -/
def DefaultDetector.set_gain (d : DefaultDetector) (gain : ℚ) :
    DefaultDetector :=
  { d with params := { d.params with gain := gain } }

/-- `DefaultDetector::set_phase`: a plain field write. -/
def DefaultDetector.set_phase (d : DefaultDetector) (phase : Normal) :
    DefaultDetector :=
  { d with params := { d.params with phase := phase } }

/-- `DefaultDetector::clear`. -/
def DefaultDetector.clear (d : DefaultDetector) : DefaultDetector :=
  { d with
    left_channel := d.left_channel.map Channel.clear,
    right_channel := d.right_channel.map Channel.clear }

/-- `Vec::resize(len, 0.0)` on a temp plot. -/
def vecResize (l : List ℚ) (n : Nat) : List ℚ :=
  l.take n ++ List.replicate (n - l.length) 0

/-- `DefaultDetector::process`.  Streams are represented by the two slices
their `read_access` yields (`none` when the stream itself is absent); plot
buffers are in-out values as in `Channel.process`. -/
def DefaultDetector.process (d : DefaultDetector)
    (left_stream : List ℚ × List ℚ) (right_stream : Option (List ℚ × List ℚ))
    (left_plot right_plot : Option (List ℚ)) :
    DefaultDetector × Option (List ℚ) × Option (List ℚ) :=
  match d.params.mode with
  | Mode.MonoOrLeftOnly =>
    match d.left_channel with
    | some ch =>
      let r := ch.process left_stream.1 left_stream.2 left_plot right_plot
        d.params
      ({ d with left_channel := some r.1 }, r.2.1, r.2.2)
    | none => (d, left_plot, right_plot)
  | Mode.RightOnly =>
    match right_stream with
    | some rs =>
      match d.right_channel with
      | some ch =>
        let r := ch.process rs.1 rs.2 left_plot right_plot d.params
        ({ d with right_channel := some r.1 }, r.2.1, r.2.2)
      | none => (d, left_plot, right_plot)
    | none => (d, left_plot, right_plot)
  | Mode.Dual =>
    let step1 : DefaultDetector × Option (List ℚ) :=
      match d.left_channel with
      | some ch =>
        let r := ch.process left_stream.1 left_stream.2 left_plot none d.params
        ({ d with left_channel := some r.1 }, r.2.1)
      | none => (d, left_plot)
    let d1 := step1.1
    match right_stream with
    | some rs =>
      match d1.right_channel with
      | some ch =>
        let r := ch.process rs.1 rs.2 right_plot none d1.params
        ({ d1 with right_channel := some r.1 }, step1.2, r.2.1)
      | none => (d1, step1.2, right_plot)
    | none => (d1, step1.2, right_plot)
  | Mode.StereoToMono =>
    let left_plot_len := left_plot.map List.length
    let step1 : DefaultDetector × Bool :=
      match d.left_channel with
      | some ch =>
        match left_plot_len with
        | some len =>
          match d.temp_plots with
          | some tp =>
            let tl := vecResize tp.1 len
            let r := ch.process left_stream.1 left_stream.2 (some tl) none
              d.params
            ({ d with
                left_channel := some r.1,
                temp_plots := some (r.2.1.getD tl, tp.2) }, true)
          | none =>
            let r := ch.process left_stream.1 left_stream.2 none none d.params
            ({ d with left_channel := some r.1 }, true)
        | none =>
          let r := ch.process left_stream.1 left_stream.2 none none d.params
          ({ d with left_channel := some r.1 }, true)
      | none => (d, false)
    let d1 := step1.1
    let step2 : DefaultDetector × Bool :=
      match right_stream with
      | some rs =>
        match d1.right_channel with
        | some ch =>
          match left_plot_len with
          | some len =>
            match d1.temp_plots with
            | some tp =>
              let tr := vecResize tp.2 len
              let r := ch.process rs.1 rs.2 (some tr) none d1.params
              ({ d1 with
                  right_channel := some r.1,
                  temp_plots := some (tp.1, r.2.1.getD tr) }, true)
            | none =>
              let r := ch.process rs.1 rs.2 none none d1.params
              ({ d1 with right_channel := some r.1 }, true)
          | none =>
            let r := ch.process rs.1 rs.2 none none d1.params
            ({ d1 with right_channel := some r.1 }, true)
        | none => (d1, false)
      | none => (d1, false)
    let d2 := step2.1
    if step1.2 && step2.2 then
      match left_plot with
      | some lp =>
        match d2.temp_plots with
        | some tp =>
          let merged := List.zipWith (fun a b => (a + b) / 2)
            (tp.1.take lp.length) (tp.2.take lp.length)
          (d2, some merged, right_plot.map (fun _ => merged))
        | none => (d2, some lp, right_plot)
      | none => (d2, none, right_plot)
    else (d2, left_plot, right_plot)

/-- The oscilloscope widget `State` fields the `Animator` touches. -/
structure OscState where
  left_plot : List ℚ
  right_plot : Option (List ℚ)
  left_active : Bool
  right_active : Bool
deriving DecidableEq

/-- `oscilloscope::Animator::update`, specialized to the `DefaultDetector`:
with `skip_plotting` the detector is called with no plot buffers; otherwise
the state's plot buffers are handed in and receive the detector's writes. -/
def Animator.update (det : DefaultDetector) (st : OscState)
    (left_stream : Option (List ℚ × List ℚ))
    (right_stream : Option (List ℚ × List ℚ)) (skip_plotting : Bool) :
    DefaultDetector × OscState :=
  let step :=
    match left_stream with
    | some ls =>
      let plots : Option (List ℚ) × Option (List ℚ) :=
        if skip_plotting then (none, none)
        else (some st.left_plot, st.right_plot)
      let r := det.process ls right_stream plots.1 plots.2
      (r.1,
        { st with
          left_active := true,
          left_plot := r.2.1.getD st.left_plot,
          right_plot :=
            match st.right_plot, r.2.2 with
            | some _, some rp => some rp
            | sp, _ => sp })
    | none => (det, { st with left_active := false })
  (step.1, { step.2 with right_active := right_stream.isSome })

theorem Channel.process_fst (ch : Channel) (s1 s2 : List ℚ)
    (pA pB pA' pB' : Option (List ℚ)) (p : Params) :
    (Channel.process ch s1 s2 pA pB p).1 = (Channel.process ch s1 s2 pA' pB' p).1 :=
  rfl

theorem Channel.process_none_plots (ch : Channel) (s1 s2 : List ℚ)
    (pB : Option (List ℚ)) (p : Params) :
    (Channel.process ch s1 s2 none pB p).2 = (none, pB) := by
  rw [Channel.process]
  split <;> rfl

/-- The resampling loop is linear in the gain factor. -/
theorem resample_gain (buffer : BMRingBuf) (fi delta g : ℚ) (n : Nat) :
    resample buffer fi delta g n =
      (resample buffer fi delta 1 n).map (fun v => g * v) := by
  induction n generalizing fi with
  | zero => rfl
  | succ n ih =>
    rw [resample, resample, List.map_cons, ← ih]
    congr 1
    ring

/-- C6: the oscilloscope channel's emitted plot is linear in the configured
gain: with the same state and input, whenever an output window is due, running
with `gain := g` produces exactly the per-value `g`-multiple of the plot
produced with `gain := 1` (the raw linear interpolation of history), in both
the plot and its copy, while the channel state is identical. -/
theorem c6_gain_scales_plot (ch : Channel) (s1 s2 : List ℚ) (pl : List ℚ)
    (p2in : Option (List ℚ)) (p : Params) (g : ℚ)
    (hdue : (1:ℚ) ≤ ch.latest_window_phase +
      (((s1.length + s2.length : ℕ)) : ℚ) * p.smp_to_window_phase_ratio) :
    (Channel.process ch s1 s2 (some pl) p2in { p with gain := g }).1 =
      (Channel.process ch s1 s2 (some pl) p2in { p with gain := 1 }).1 ∧
    (Channel.process ch s1 s2 (some pl) p2in { p with gain := g }).2.1 =
      ((Channel.process ch s1 s2 (some pl) p2in { p with gain := 1 }).2.1).map
        (List.map (fun v => g * v)) ∧
    (Channel.process ch s1 s2 (some pl) p2in { p with gain := g }).2.2 =
      ((Channel.process ch s1 s2 (some pl) p2in { p with gain := 1 }).2.2).map
        (List.map (fun v => g * v)) := by
  refine ⟨rfl, ?_, ?_⟩ <;>
  · rw [Channel.process, Channel.process]
    rw [if_pos hdue, if_pos hdue]
    cases p2in <;>
      (dsimp only []; first | rfl | (rw [resample_gain]; rfl))

/-- Witness for C6 at a concrete input: a unit-ratio configuration where two
incoming samples make a window due, with `gain = 7`. -/
theorem c6_gain_scales_plot_witness :
    ((1:ℚ) ≤ (Channel.mk (BMRingBuf.from_len 2) 0 0).latest_window_phase +
      ((([(1:ℚ), 2].length + ([] : List ℚ).length : ℕ)) : ℚ) *
        (Params.new 1 1 5 (Normal.new 0) Mode.MonoOrLeftOnly).smp_to_window_phase_ratio) ∧
    ((Channel.process (Channel.mk (BMRingBuf.from_len 2) 0 0) [(1:ℚ), 2] []
        (some [0, 0]) none
        { Params.new 1 1 5 (Normal.new 0) Mode.MonoOrLeftOnly with gain := 7 }).2.1 =
      ((Channel.process (Channel.mk (BMRingBuf.from_len 2) 0 0) [(1:ℚ), 2] []
        (some [0, 0]) none
        { Params.new 1 1 5 (Normal.new 0) Mode.MonoOrLeftOnly with gain := 1 }).2.1).map
        (List.map (fun v => (7:ℚ) * v))) :=
  ⟨by with_unfolding_all decide,
    (c6_gain_scales_plot (Channel.mk (BMRingBuf.from_len 2) 0 0) [(1:ℚ), 2] []
      [0, 0] none (Params.new 1 1 5 (Normal.new 0) Mode.MonoOrLeftOnly) 7
      (by with_unfolding_all decide)).2.1⟩

theorem DefaultDetector.process_channels_plot_indep (d : DefaultDetector)
    (ls : List ℚ × List ℚ) (rs : Option (List ℚ × List ℚ))
    (pA pB pA' pB' : Option (List ℚ)) :
    (d.process ls rs pA pB).1.left_channel =
      (d.process ls rs pA' pB').1.left_channel ∧
    (d.process ls rs pA pB).1.right_channel =
      (d.process ls rs pA' pB').1.right_channel := by
  obtain ⟨⟨ws, sr, gn, ph, md, srr, ratio⟩, lc, rc, tp⟩ := d
  cases md
  case MonoOrLeftOnly => cases lc <;> exact ⟨rfl, rfl⟩
  case RightOnly =>
    rcases rs with _ | r
    · exact ⟨rfl, rfl⟩
    · cases rc <;> exact ⟨rfl, rfl⟩
  case Dual =>
    cases lc <;> rcases rs with _ | r <;>
      first
        | exact ⟨rfl, rfl⟩
        | (cases rc <;> exact ⟨rfl, rfl⟩)
  case StereoToMono =>
    cases lc <;> rcases rs with _ | r <;> cases pA <;> cases pA' <;> cases tp <;>
      first
        | exact ⟨rfl, rfl⟩
        | (cases rc <;> exact ⟨rfl, rfl⟩)

theorem DefaultDetector.process_plotless (d : DefaultDetector)
    (ls : List ℚ × List ℚ) (rs : Option (List ℚ × List ℚ)) :
    (d.process ls rs none none).2 = (none, none) := by
  obtain ⟨⟨ws, sr, gn, ph, md, srr, ratio⟩, lc, rc, tp⟩ := d
  cases md <;> cases lc <;> cases rc <;> rcases rs with _ | r <;> cases tp <;>
    simp [DefaultDetector.process, Channel.process_none_plots]

/-- C7: an oscilloscope detector call made through the `Animator` with
`skip_plotting = true` advances the detector's per-channel state (history
writes, `buffer_i`, `latest_window_phase`) exactly as the same call with
`skip_plotting = false` would, while the caller's plot buffers are left
untouched. -/
theorem c7_skip_plotting_advances_state (det : DefaultDetector) (st : OscState)
    (ls : List ℚ × List ℚ) (rs : Option (List ℚ × List ℚ)) :
    (Animator.update det st (some ls) rs true).1.left_channel =
      (Animator.update det st (some ls) rs false).1.left_channel ∧
    (Animator.update det st (some ls) rs true).1.right_channel =
      (Animator.update det st (some ls) rs false).1.right_channel ∧
    (Animator.update det st (some ls) rs true).2.left_plot = st.left_plot ∧
    (Animator.update det st (some ls) rs true).2.right_plot = st.right_plot := by
  have hplots := DefaultDetector.process_plotless det ls rs
  have h1 : (det.process ls rs none none).2.1 = none := by rw [hplots]
  have h2 : (det.process ls rs none none).2.2 = none := by rw [hplots]
  have hindep := DefaultDetector.process_channels_plot_indep det ls rs
    none none (some st.left_plot) st.right_plot
  refine ⟨?_, ?_, ?_, ?_⟩
  · exact hindep.1
  · exact hindep.2
  · show ((det.process ls rs none none).2.1).getD st.left_plot = st.left_plot
    rw [h1]
    rfl
  · show (match st.right_plot, (det.process ls rs none none).2.2 with
      | some _, some rp => some rp
      | sp, _ => sp) = st.right_plot
    rw [h2]
    rcases st.right_plot <;> rfl

/-! ### The per-channel cursor/phase invariant (C8) -/

/-- The claimed per-channel invariant: `buffer_i ∈ [0, buffer length)` and
`latest_window_phase ∈ [0, 1)`. -/
def Channel.inv (ch : Channel) : Prop :=
  0 ≤ ch.buffer_i ∧ ch.buffer_i < (ch.buffer.data.length : ℤ) ∧
  0 ≤ ch.latest_window_phase ∧ ch.latest_window_phase < 1

instance (ch : Channel) : Decidable ch.inv :=
  inferInstanceAs (Decidable (_ ∧ _ ∧ _ ∧ _))

/-- The invariant lifted to an optional channel ("for every channel that
exists"). -/
def chInvOpt : Option Channel → Prop
  | some ch => ch.inv
  | none => True

instance : (o : Option Channel) → Decidable (chInvOpt o)
  | some ch => inferInstanceAs (Decidable ch.inv)
  | none => inferInstanceAs (Decidable True)

/-- The detector-level invariant of C8. -/
def DefaultDetector.inv (d : DefaultDetector) : Prop :=
  chInvOpt d.left_channel ∧ chInvOpt d.right_channel

instance (d : DefaultDetector) : Decidable d.inv :=
  inferInstanceAs (Decidable (_ ∧ _))

/-- A channel's ring has the length `allocate_buffers` would give it under the
current params (true for every detector the public API can build). -/
def Channel.sized (p : Params) (ch : Channel) : Prop :=
  ch.buffer.data.length = (bufferSizeOf p).nextPowerOfTwo

instance (p : Params) (ch : Channel) : Decidable (ch.sized p) :=
  inferInstanceAs (Decidable (_ = _))

/-- `Channel.sized` lifted to an optional channel. -/
def chSizedOpt (p : Params) : Option Channel → Prop
  | some ch => ch.sized p
  | none => True

instance (p : Params) : (o : Option Channel) → Decidable (chSizedOpt p o)
  | some ch => inferInstanceAs (Decidable (ch.sized p))
  | none => inferInstanceAs (Decidable True)

/-- Both channels of the detector are sized for the current params. -/
def DefaultDetector.sized (d : DefaultDetector) : Prop :=
  chSizedOpt d.params d.left_channel ∧ chSizedOpt d.params d.right_channel

instance (d : DefaultDetector) : Decidable d.sized :=
  inferInstanceAs (Decidable (_ ∧ _))

theorem BMRingBuf.writeSeq_length (b : BMRingBuf) (l : List ℚ) (i : ℤ) :
    (b.writeSeq l i).data.length = b.data.length := by
  induction l generalizing b i with
  | nil => rfl
  | cons x xs ih =>
    rw [BMRingBuf.writeSeq, ih]
    exact List.length_set ..

theorem Nat.nextPowerOfTwo_pos (n : Nat) : 0 < n.nextPowerOfTwo := by
  obtain ⟨k, hk⟩ := Nat.isPowerOfTwo_nextPowerOfTwo n
  rw [hk]
  exact Nat.pos_pow_of_pos k (by norm_num)

theorem rustFract_bounds (q : ℚ) (h : 0 ≤ q) :
    0 ≤ rustFract q ∧ rustFract q < 1 := by
  rw [rustFract, rustTrunc, if_pos h, ratFloor_eq_floor]
  constructor
  · have := Int.floor_le q
    linarith
  · have := Int.lt_floor_add_one q
    linarith

theorem BMRingBuf.constrain_bounds (b : BMRingBuf) (i : ℤ)
    (h : 0 < b.data.length) :
    0 ≤ b.constrain i ∧ b.constrain i < (b.data.length : ℤ) := by
  constructor
  · exact Int.emod_nonneg i (by exact_mod_cast Nat.pos_iff_ne_zero.mp h)
  · exact Int.emod_lt_of_pos i (by exact_mod_cast h)

/-- `Channel::process` preserves the cursor/phase invariant whenever the
sample-to-window ratio is nonnegative (true for positive window size and
sample rate). -/
theorem Channel.process_inv (ch : Channel) (s1 s2 : List ℚ)
    (pA pB : Option (List ℚ)) (p : Params) (hinv : ch.inv)
    (hr : 0 ≤ p.smp_to_window_phase_ratio) :
    ((Channel.process ch s1 s2 pA pB p).1).inv := by
  obtain ⟨h0, h1, h2, h3⟩ := hinv
  have hlen : (ch.buffer.write_latest_2 s1 s2 ch.buffer_i).data.length =
      ch.buffer.data.length :=
    BMRingBuf.writeSeq_length ch.buffer (s1 ++ s2) ch.buffer_i
  have hpos : 0 < ch.buffer.data.length := by
    have : (0:ℤ) < (ch.buffer.data.length : ℤ) := lt_of_le_of_lt h0 h1
    exact_mod_cast this
  have hposW : 0 < (ch.buffer.write_latest_2 s1 s2 ch.buffer_i).data.length := by
    rw [hlen]; exact hpos
  have hcon := BMRingBuf.constrain_bounds
    (ch.buffer.write_latest_2 s1 s2 ch.buffer_i)
    (ch.buffer_i + ((s1.length + s2.length : ℕ) : ℤ)) hposW
  have hargs : (0:ℚ) ≤ ch.latest_window_phase +
      ((s1.length + s2.length : ℕ) : ℚ) * p.smp_to_window_phase_ratio :=
    add_nonneg h2 (mul_nonneg (by positivity) hr)
  have hfr := rustFract_bounds _ hargs
  exact ⟨hcon.1, hcon.2, hfr.1, hfr.2⟩

/-- `Channel::clear` re-establishes the invariant (the ring keeps its length). -/
theorem Channel.clear_inv (ch : Channel) (hinv : ch.inv) : ch.clear.inv := by
  obtain ⟨h0, h1, _, _⟩ := hinv
  have hpos : (0:ℤ) < (ch.buffer.data.length : ℤ) := lt_of_le_of_lt h0 h1
  refine ⟨le_refl 0, ?_, le_refl 0, by show (0:ℚ) < 1; norm_num⟩
  show (0:ℤ) < ((List.replicate ch.buffer.data.length (0:ℚ)).length : ℤ)
  rw [List.length_replicate]
  exact hpos

/-- A freshly allocated channel satisfies the invariant. -/
theorem Channel.fresh_inv (n : Nat) :
    (Channel.mk (BMRingBuf.from_len n) 0 0).inv := by
  refine ⟨le_refl 0, ?_, le_refl 0, by show (0:ℚ) < 1; norm_num⟩
  show (0:ℤ) < ((List.replicate n.nextPowerOfTwo (0:ℚ)).length : ℤ)
  rw [List.length_replicate]
  exact_mod_cast Nat.nextPowerOfTwo_pos n

/-- `set_len` to the size the channel already has keeps the ring length. -/
theorem BMRingBuf.set_len_same (b : BMRingBuf) (n : Nat)
    (h : b.data.length = n.nextPowerOfTwo) :
    (b.set_len n).data.length = b.data.length := by
  rw [BMRingBuf.set_len]
  simp only [List.length_append, List.length_take, List.length_replicate]
  omega

/-- A sized channel keeps its invariant through `set_len` to the same
configured size. -/
theorem Channel.set_len_inv (ch : Channel) (n : Nat) (hinv : ch.inv)
    (h : ch.buffer.data.length = n.nextPowerOfTwo) :
    (Channel.mk (ch.buffer.set_len n) ch.latest_window_phase ch.buffer_i).inv := by
  obtain ⟨h0, h1, h2, h3⟩ := hinv
  refine ⟨h0, ?_, h2, h3⟩
  show ch.buffer_i < ((ch.buffer.set_len n).data.length : ℤ)
  rw [BMRingBuf.set_len_same ch.buffer n h]
  exact h1

/-- The process-call conjunct of the amended C8, at detector level. -/
theorem DefaultDetector.process_preserves_inv (d : DefaultDetector)
    (ls : List ℚ × List ℚ) (rs : Option (List ℚ × List ℚ))
    (lp rp : Option (List ℚ)) (hinv : d.inv)
    (hr : 0 ≤ d.params.smp_to_window_phase_ratio) :
    (d.process ls rs lp rp).1.inv := by
  obtain ⟨⟨ws, sr, gn, ph, md, srr, ratio⟩, lc, rc, tp⟩ := d
  obtain ⟨hL, hR⟩ := hinv
  cases md <;> cases lc <;> cases rc <;> rcases rs with _ | r <;> cases tp <;>
    cases lp <;>
    first
      | exact ⟨hL, hR⟩
      | exact ⟨Channel.process_inv _ _ _ _ _ _ hL hr, hR⟩
      | exact ⟨hL, Channel.process_inv _ _ _ _ _ _ hR hr⟩
      | exact ⟨Channel.process_inv _ _ _ _ _ _ hL hr,
          Channel.process_inv _ _ _ _ _ _ hR hr⟩

/-- The concrete detector used to refute C8 as stated: window 0.8 s at rate
10 Hz gives a 16-slot history ring. -/
def c8Det0 : DefaultDetector :=
  DefaultDetector.new (4/5) 10 1 (Normal.new 0) Mode.MonoOrLeftOnly

/-- `c8Det0` after one process call delivering 10 samples: the cursor sits at
`buffer_i = 10` in the 16-slot ring. -/
def c8Det1 : DefaultDetector :=
  (c8Det0.process (List.replicate 10 1, []) none none none).1

/-- C8, counterexample: the invariant holds after processing ten samples
(`buffer_i = 10 < 16`, phase `0.25`), but `set_window_size(0.1)` shrinks the
ring to 2 slots via `set_len` *without resetting* `buffer_i`, leaving
`buffer_i = 10 ≥ 2`: the setters are not invariant-preserving as claimed. -/
theorem c8_resize_breaks_invariant :
    c8Det1.inv ∧ ¬ (c8Det1.set_window_size (1/10)).inv := by
  with_unfolding_all decide

/-- C8, amended: `process` (in any mode), `clear`, `set_gain`, `set_phase`,
and `set_mode` all preserve the per-channel invariant (given a nonnegative
sample-to-window ratio and rings sized to the current params, as the public
constructors guarantee); only the buffer-resizing setters
`set_window_size`/`set_sample_rate` can break it, by shrinking the ring
without resetting `buffer_i` (see the counterexample). -/
theorem c8_invariant_preserved_except_resize (d : DefaultDetector)
    (hinv : d.inv) (hr : 0 ≤ d.params.smp_to_window_phase_ratio)
    (hsz : d.sized) (ls : List ℚ × List ℚ) (rs : Option (List ℚ × List ℚ))
    (lp rp : Option (List ℚ)) (g : ℚ) (ph2 : Normal) (m : Mode) :
    (d.process ls rs lp rp).1.inv ∧ d.clear.inv ∧ (d.set_gain g).inv ∧
    (d.set_phase ph2).inv ∧ (d.set_mode m).inv := by
  refine ⟨DefaultDetector.process_preserves_inv d ls rs lp rp hinv hr, ?_, hinv, hinv, ?_⟩
  · obtain ⟨p, lc, rc, tp⟩ := d
    obtain ⟨hL, hR⟩ := hinv
    cases lc <;> cases rc <;>
      first
        | exact ⟨trivial, trivial⟩
        | exact ⟨Channel.clear_inv _ hL, trivial⟩
        | exact ⟨trivial, Channel.clear_inv _ hR⟩
        | exact ⟨Channel.clear_inv _ hL, Channel.clear_inv _ hR⟩
  · rw [DefaultDetector.set_mode]
    by_cases hmeq : m = d.params.mode
    · rw [if_pos hmeq]
      exact hinv
    · rw [if_neg hmeq]
      obtain ⟨⟨ws, sr, gn, ph, md, srr, ratio⟩, lc, rc, tp⟩ := d
      obtain ⟨hL, hR⟩ := hinv
      obtain ⟨sL, sR⟩ := hsz
      cases m <;> cases lc <;> cases rc <;>
        refine ⟨?_, ?_⟩ <;>
        first
          | trivial
          | exact Channel.fresh_inv _
          | exact Channel.set_len_inv _ _ hL sL
          | exact Channel.set_len_inv _ _ hR sR

/-- Witness for the amended C8: the concrete 16-slot detector `c8Det0`
(ratio 1/8, properly sized) with ten incoming samples, and each non-resizing
operation applied. -/
theorem c8_invariant_preserved_except_resize_witness :
    (c8Det0.inv ∧ 0 ≤ c8Det0.params.smp_to_window_phase_ratio ∧ c8Det0.sized) ∧
    ((c8Det0.process (List.replicate 10 1, []) none none none).1.inv ∧
      c8Det0.clear.inv ∧ (c8Det0.set_gain 3).inv ∧
      (c8Det0.set_phase (Normal.new (1/2))).inv ∧
      (c8Det0.set_mode Mode.Dual).inv) :=
  ⟨⟨by with_unfolding_all decide, by with_unfolding_all decide,
      by with_unfolding_all decide⟩,
    c8_invariant_preserved_except_resize c8Det0
      (by with_unfolding_all decide) (by with_unfolding_all decide)
      (by with_unfolding_all decide) (List.replicate 10 1, []) none none none 3
      (Normal.new (1/2)) Mode.Dual⟩

/-- C10: `set_gain` and `set_phase` never touch the channels (history,
cursors) or the temp plots, and each of `set_window_size`, `set_sample_rate`
and `set_mode` called with the currently-configured value is a complete no-op
on the detector state: reallocation happens only when the value changes. -/
theorem c10_setters_no_spurious_reset (d : DefaultDetector) (g : ℚ)
    (ph : Normal) (ws sr : ℚ) (m : Mode) (hw : ws = d.params.window_size)
    (hs : sr = d.params.sample_rate) (hm : m = d.params.mode) :
    (d.set_gain g).left_channel = d.left_channel ∧
    (d.set_gain g).right_channel = d.right_channel ∧
    (d.set_gain g).temp_plots = d.temp_plots ∧
    (d.set_phase ph).left_channel = d.left_channel ∧
    (d.set_phase ph).right_channel = d.right_channel ∧
    (d.set_phase ph).temp_plots = d.temp_plots ∧
    d.set_window_size ws = d ∧ d.set_sample_rate sr = d ∧ d.set_mode m = d := by
  refine ⟨rfl, rfl, rfl, rfl, rfl, rfl, ?_, ?_, ?_⟩
  · rw [DefaultDetector.set_window_size, if_pos hw]
  · rw [DefaultDetector.set_sample_rate, if_pos hs]
  · rw [DefaultDetector.set_mode, if_pos hm]

/-- Witness for C10 on a concrete dual-mode detector, re-applying its own
current window size, sample rate and mode. -/
theorem c10_setters_no_spurious_reset_witness :
    ((DefaultDetector.new 1 2 1 (Normal.new 0) Mode.Dual).set_gain 5).left_channel =
      (DefaultDetector.new 1 2 1 (Normal.new 0) Mode.Dual).left_channel ∧
    ((DefaultDetector.new 1 2 1 (Normal.new 0) Mode.Dual).set_gain 5).right_channel =
      (DefaultDetector.new 1 2 1 (Normal.new 0) Mode.Dual).right_channel ∧
    ((DefaultDetector.new 1 2 1 (Normal.new 0) Mode.Dual).set_gain 5).temp_plots =
      (DefaultDetector.new 1 2 1 (Normal.new 0) Mode.Dual).temp_plots ∧
    ((DefaultDetector.new 1 2 1 (Normal.new 0) Mode.Dual).set_phase (Normal.new 1)).left_channel =
      (DefaultDetector.new 1 2 1 (Normal.new 0) Mode.Dual).left_channel ∧
    ((DefaultDetector.new 1 2 1 (Normal.new 0) Mode.Dual).set_phase (Normal.new 1)).right_channel =
      (DefaultDetector.new 1 2 1 (Normal.new 0) Mode.Dual).right_channel ∧
    ((DefaultDetector.new 1 2 1 (Normal.new 0) Mode.Dual).set_phase (Normal.new 1)).temp_plots =
      (DefaultDetector.new 1 2 1 (Normal.new 0) Mode.Dual).temp_plots ∧
    (DefaultDetector.new 1 2 1 (Normal.new 0) Mode.Dual).set_window_size
      (DefaultDetector.new 1 2 1 (Normal.new 0) Mode.Dual).params.window_size =
      DefaultDetector.new 1 2 1 (Normal.new 0) Mode.Dual ∧
    (DefaultDetector.new 1 2 1 (Normal.new 0) Mode.Dual).set_sample_rate
      (DefaultDetector.new 1 2 1 (Normal.new 0) Mode.Dual).params.sample_rate =
      DefaultDetector.new 1 2 1 (Normal.new 0) Mode.Dual ∧
    (DefaultDetector.new 1 2 1 (Normal.new 0) Mode.Dual).set_mode
      (DefaultDetector.new 1 2 1 (Normal.new 0) Mode.Dual).params.mode =
      DefaultDetector.new 1 2 1 (Normal.new 0) Mode.Dual :=
  c10_setters_no_spurious_reset (DefaultDetector.new 1 2 1 (Normal.new 0) Mode.Dual)
    5 (Normal.new 1) _ _ _ rfl rfl rfl

end Oscilloscope

/-! ## Waveform view (`src/native/rt_wave_view.rs`,
`src/native/rt_wave_view/peak_detector.rs`) -/

namespace RtWaveView

/-- `PlotPoint { max, min }`. -/
structure PlotPoint where
  max : ℚ
  min : ℚ
deriving DecidableEq

/-- The exact value of `f32::MAX` (`(2 - 2⁻²³)·2¹²⁷`), used as the initial
`min` of the `min_max` fold; `f32::MIN` is its negation. -/
def F32_MAX : ℚ := 2^128 - 2^104

/-- The `min_max` reduction over one slice. -/
def min_max (s : List ℚ) : PlotPoint :=
  s.foldl
    (fun p v =>
      ⟨if p.max < v then v else p.max, if v < p.min then v else p.min⟩)
    ⟨-F32_MAX, F32_MAX⟩

/-- The waveform-view detection `Mode`. -/
inductive Mode where
  | MonoOrLeftOnly
  | RightOnly
  | Dual
  | StereoToMono
deriving DecidableEq

/-- The waveform-view detector `Params`. -/
structure Params where
  gain : ℚ
  mode : Mode
  sample_rate : ℚ
  window_size : ℚ
deriving DecidableEq

/-- The scrolling plot: a `slice_ring_buf::SliceRB<PlotPoint>` of fixed
resolution plus the write cursor `start_index`. -/
structure Plot where
  buffer : List PlotPoint
  start_index : ℤ
deriving DecidableEq

/-- `Plot::new(resolution)`: default-initialized points, cursor at 0. -/
def Plot.new (resolution : Nat) : Plot :=
  ⟨List.replicate resolution ⟨0, 0⟩, 0⟩

/-- `SliceRB::constrain`: Euclidean wraparound on the (not necessarily
power-of-two) resolution. -/
def Plot.constrain (p : Plot) (i : ℤ) : ℤ :=
  i.emod p.buffer.length

/-- `Plot::len`. -/
def Plot.len (p : Plot) : Nat :=
  p.buffer.length

/-- `Plot::write_to_next(len)`: advances the write cursor by `len` (wrapped)
and hands the caller the `len` slots starting at the previous cursor; the
second component is that previous cursor position. -/
def Plot.write_to_next (p : Plot) (len : Nat) : Plot × ℤ :=
  ({ p with start_index := p.constrain (p.start_index + len) }, p.start_index)

/-- `Plot::get_plot`: the two slices of the ring starting at the cursor. -/
def Plot.get_plot (p : Plot) : List PlotPoint × List PlotPoint :=
  (p.buffer.drop (p.constrain p.start_index).toNat,
   p.buffer.take (p.constrain p.start_index).toNat)

/-- The `PeakDetector` struct of `rt_wave_view::peak_detector`. -/
structure PeakDetector where
  params : Params
deriving DecidableEq

/-- `PeakDetector::new`. -/
def PeakDetector.new (gain : ℚ) (mode : Mode) (sample_rate window_size : ℚ) :
    PeakDetector :=
  ⟨⟨gain, mode, sample_rate, window_size⟩⟩

/-- `PeakDetector::set_mode`. -/
def PeakDetector.set_mode (d : PeakDetector) (mode : Mode) : PeakDetector :=
  { d with params := { d.params with mode := mode } }

/-- The `num_new_plot_points` value computed (and then discarded) by
`PeakDetector::process`: `num_smps · (plot.len() / window_size) / sample_rate`. -/
def numNewPlotPoints (plotLen : Nat) (window_size sample_rate : ℚ)
    (num_smps : Nat) : ℚ :=
  (num_smps : ℚ) * ((plotLen : ℚ) / window_size) / sample_rate

/-- `PeakDetector::process`.  In the source the entire min/max plotting block
is commented out: in `MonoOrLeftOnly` mode with a plot present the closure
computes `num_new_plot_points` and nothing else (no `Plot::write_to_next`
call, no cursor advance, no point written); the other three mode arms are
empty.  The plot buffers therefore pass through unchanged. -/
def PeakDetector.process (d : PeakDetector) (left_stream : List ℚ × List ℚ)
    (_right_stream : Option (List ℚ × List ℚ))
    (left_plot right_plot : Option Plot) :
    PeakDetector × Option Plot × Option Plot :=
  match d.params.mode with
  | Mode.MonoOrLeftOnly =>
    match left_plot with
    | some plot =>
      let _num_new_plot_points := numNewPlotPoints plot.len
        d.params.window_size d.params.sample_rate
        (left_stream.1.length + left_stream.2.length)
      (d, some plot, right_plot)
    | none => (d, none, right_plot)
  | Mode.RightOnly => (d, left_plot, right_plot)
  | Mode.Dual => (d, left_plot, right_plot)
  | Mode.StereoToMono => (d, left_plot, right_plot)

/-- `PeakDetector::clear` (a no-op). -/
def PeakDetector.clear (d : PeakDetector) : PeakDetector := d

/-- `PeakDetector::set_window_size` (a no-op: the body is empty). -/
def PeakDetector.set_window_size (d : PeakDetector) (_window_size : ℚ) :
    PeakDetector := d

/-- `PeakDetector::set_sample_rate` (a no-op: the body is empty). -/
def PeakDetector.set_sample_rate (d : PeakDetector) (_sample_rate : ℚ) :
    PeakDetector := d

/-- `PeakDetector::set_gain`. -/
def PeakDetector.set_gain (d : PeakDetector) (gain : ℚ) : PeakDetector :=
  { d with params := { d.params with gain := gain } }

/-- C4, evaluated at the failing input: with window 1 s, sample rate 4 Hz and
a 4-point plot, 8 new samples are worth exactly 8 output points
(`num_new_plot_points = 8`), yet `process` returns the plot buffer and its
write cursor completely unchanged and the detector state untouched -- the
min/max computation and the `write_to_next` cursor advance the claim describes
are commented out in the source. -/
theorem c4_plotting_is_disabled :
    numNewPlotPoints (Plot.new 4).len 1 4 (List.replicate 8 (1:ℚ)).length = 8 ∧
    (PeakDetector.new 1 Mode.MonoOrLeftOnly 4 1).process
        (List.replicate 8 (1:ℚ), []) none (some (Plot.new 4)) none =
      (PeakDetector.new 1 Mode.MonoOrLeftOnly 4 1, some (Plot.new 4), none) := by
  constructor
  · rw [numNewPlotPoints]
    norm_num [Plot.new, Plot.len]
  · rfl

end RtWaveView

end IcedAudio
